import Mathlib

/-!
# Verification of the otptray core (`src/application/src/common.rs`)

A shallow embedding of the application's state and event model:
credential entries, input validation, OTP derivation, the ephemeral
code table, and config persistence, together with proofs of the
specification's claims about them.

Machine integers are embedded as `Nat` (`u64` values stay below `2 ^ 64`
by construction of the parsers; byte values are reduced `% 256` where
they are consumed).  Fallible Rust code (panics, `Result`, `Option`) is
embedded as `Option` / `Except`.
-/

namespace OtpTray

/-- The valid hash-function names, from `VALID_HASH_FNS` in common.rs. -/
def VALID_HASH_FNS : List String := ["sha1", "sha256", "sha512"]

/-- `OtpEntry` from common.rs: one credential entry.  `step` is a `u64`
and `digit_count` a `u32` in the source; both are embedded as `Nat`. -/
structure OtpEntry where
  name : String
  step : Nat
  secret_hash : String
  hash_fn : String
  digit_count : Nat
deriving DecidableEq

/-- `ValidationError` from common.rs.  The `ParseIntError` payload of
`IntegerFormat` carries no information the claims need and is dropped. -/
inductive ValidationError where
  | Empty (field : String)
  | IntegerFormat
  | Length (field : String) (upper_bound : Nat) (length : Nat)
  | InvalidSelection (field : String) (candidate : String) (valid_selections : List String)
deriving DecidableEq

/-- ASCII decimal digit test, as used by Rust's unsigned-integer `FromStr`. -/
def isAsciiDigit (c : Char) : Bool := decide ('0' ≤ c) && decide (c ≤ '9')

/-- Rust's `str::parse` for an unsigned integer type with exclusive upper
bound `bound` (`2 ^ 64` for `u64`, `2 ^ 8` for `u8`): an optional single
leading `'+'`, then one or more ASCII digits, value in range; any other
input is a parse error (`none`). -/
def parseUnsigned (bound : Nat) (s : List Char) : Option Nat :=
  let t := match s with
    | '+' :: rest => rest
    | _ => s
  if t.isEmpty then none
  else if t.all isAsciiDigit then
    let n := t.foldl (fun acc c => acc * 10 + (c.toNat - 48)) 0
    if n < bound then some n else none
  else none

/-- `step.parse::<u64>()`. -/
def parseU64 (s : List Char) : Option Nat := parseUnsigned (2 ^ 64) s

/-- `digit_count.parse::<u8>()`. -/
def parseU8 (s : List Char) : Option Nat := parseUnsigned (2 ^ 8) s

/-- `OtpEntry::input_validate` from common.rs: early-return validation of
the five raw text fields.  `name.len()` in Rust counts UTF-8 bytes, hence
`String.utf8ByteSize`.  The `u8` digit count is widened to `u32`
(`digit_count_parsed as u32`), which is the identity on `Nat`. -/
def input_validate (name step secret_hash hash_fn digit_count : String) :
    Except ValidationError OtpEntry :=
  if name.isEmpty then .error (.Empty "name")
  else if 255 < name.utf8ByteSize then
    .error (.Length "name" 255 name.utf8ByteSize)
  else if secret_hash.isEmpty then .error (.Empty "secret")
  else if (VALID_HASH_FNS.find? fun valid_hash => valid_hash == hash_fn).isNone then
    .error (.InvalidSelection "hash function" hash_fn VALID_HASH_FNS)
  else
    match parseU64 step.data with
    | none => .error .IntegerFormat
    | some step_parsed =>
      match parseU8 digit_count.data with
      | none => .error .IntegerFormat
      | some digit_count_parsed =>
        .ok { name := name, step := step_parsed, secret_hash := secret_hash,
              hash_fn := hash_fn, digit_count := digit_count_parsed }

/-! ## The ephemeral code table

`AppState.otp_codes` is a `HashMap<u64, String>` in the source; it is
embedded as an association list with insert-replaces-key semantics, the
observable behaviour of `HashMap::insert` / `HashMap::get`. -/

/-- `HashMap::get`. -/
def mapGet : List (Nat × String) → Nat → Option String
  | [], _ => none
  | (k', v) :: rest, k => if k' = k then some v else mapGet rest k

/-- `HashMap::insert` (replacing any existing binding of the key). -/
def mapInsert (m : List (Nat × String)) (k : Nat) (v : String) : List (Nat × String) :=
  (k, v) :: m.filter fun p => p.1 != k

theorem mapGet_mapInsert_self (m : List (Nat × String)) (k : Nat) (v : String) :
    mapGet (mapInsert m k v) k = some v := by
  simp [mapGet, mapInsert]

/-! ## Base32 decoding

`base32::decode(Alphabet::RFC4648 { padding: false }, s)` from the external
`base32` crate, modelled per RFC 4648: each character is a 5-bit value
(`A`..`Z` ↦ 0..25, `2`..`7` ↦ 26..31, case-insensitively), the bit stream is
regrouped into 8-bit bytes, trailing bits that do not fill a byte are
dropped, and any character outside the alphabet makes the whole decode fail
(`none`). -/

/-- The 5-bit value of one Base32 character, or `none` if it is not in the
RFC 4648 alphabet. -/
def b32CharVal (c : Char) : Option Nat :=
  let u := c.toUpper
  if decide ('A' ≤ u) && decide (u ≤ 'Z') then some (u.toNat - 65)
  else if decide ('2' ≤ u) && decide (u ≤ '7') then some (u.toNat - 24)
  else none

/-- Bit-regrouping loop of the Base32 decoder: `acc` holds `bits` pending
bits (most significant first); each character contributes 5 more, and a
byte is emitted whenever at least 8 are available. -/
def base32DecodeAux : List Char → Nat → Nat → Option (List Nat)
  | [], _, _ => some []
  | c :: rest, acc, bits =>
    match b32CharVal c with
    | none => none
    | some v =>
      let acc' := acc * 32 + v
      let bits' := bits + 5
      if 8 ≤ bits' then
        (base32DecodeAux rest (acc' % 2 ^ (bits' - 8)) (bits' - 8)).map
          (fun bs => acc' / 2 ^ (bits' - 8) :: bs)
      else
        base32DecodeAux rest acc' bits'

/-- `base32::decode` with the unpadded RFC 4648 alphabet. -/
def base32Decode (s : String) : Option (List Nat) := base32DecodeAux s.data 0 0

/-! ## Decimal rendering

The zero-left-padded decimal rendering used by the OTP engine
(`format!("{:0width$}", value)`). -/

/-- Little-endian decimal digits, computed with fuel for structural
recursion; `natDigits` supplies enough fuel. -/
def natDigitsAux : Nat → Nat → List Nat
  | 0, _ => []
  | _ + 1, 0 => []
  | fuel + 1, n + 1 => ((n + 1) % 10) :: natDigitsAux fuel ((n + 1) / 10)

/-- The little-endian decimal digits of `n` (empty for `0`). -/
def natDigits (n : Nat) : List Nat := natDigitsAux n n

/-- The decimal rendering of `n`, zero-left-padded to `width` characters. -/
def decimalString (width n : Nat) : String :=
  let ds := (natDigits n).reverse
  let padded := List.replicate (width - ds.length) 0 ++ ds
  ⟨padded.map fun d => Char.ofNat (48 + d)⟩

/-! ## OTP derivation

Modelled from the spec: the external `totp_lite::totp_custom::<H>` engine.
`counter = floor(now / time_step)`; HMAC the 8-byte big-endian counter with
the decoded secret; apply the standard dynamic truncation (4-bit offset
from the low nibble of the last MAC byte, 31-bit window); reduce modulo
`10 ^ digit_count`; render zero-left-padded to `digit_count` digits.
The HMAC primitives themselves are abstracted as function parameters
(`HmacImpls`): every theorem below holds for an arbitrary MAC. -/

/-- The 8-byte big-endian encoding of a `u64` counter. -/
def u64BeBytes (n : Nat) : List Nat :=
  [n / 2 ^ 56 % 256, n / 2 ^ 48 % 256, n / 2 ^ 40 % 256, n / 2 ^ 32 % 256,
   n / 2 ^ 24 % 256, n / 2 ^ 16 % 256, n / 2 ^ 8 % 256, n % 256]

/-- Modelled from the spec: standard dynamic truncation of a MAC byte
sequence to a 31-bit integer.  The offset is the low nibble of the last
byte; four bytes starting there are read big-endian with the top bit
masked off.  Byte values are reduced `% 256` (they are `u8` in the
source); positions past the end read as 0. -/
def dynamic_truncate (mac : List Nat) : Nat :=
  let offset := mac.getLastD 0 % 256 % 16
  (mac.getD offset 0 % 256 % 128) * 2 ^ 24 +
    (mac.getD (offset + 1) 0 % 256) * 2 ^ 16 +
    (mac.getD (offset + 2) 0 % 256) * 2 ^ 8 +
    mac.getD (offset + 3) 0 % 256

/-- Modelled from the spec: `totp_lite::totp_custom` for one concrete MAC
function `hmac : key → message → mac bytes`. -/
def totp_custom (hmac : List Nat → List Nat → List Nat)
    (step : Nat) (digits : Nat) (secret : List Nat) (time : Nat) : String :=
  let counter := time / step
  let mac := hmac secret (u64BeBytes counter)
  decimalString digits (dynamic_truncate mac % 10 ^ digits)

/-- The three MAC primitives `get_otp_value` dispatches between
(`totp_custom::<Sha1>`, `::<Sha256>`, `::<Sha512>`). -/
structure HmacImpls where
  sha1 : List Nat → List Nat → List Nat
  sha256 : List Nat → List Nat → List Nat
  sha512 : List Nat → List Nat → List Nat

/-- `OtpValue` from common.rs. -/
structure OtpValue where
  name : String
  otp : String
deriving DecidableEq

/-- `OtpEntry::get_otp_value` from common.rs, parameterised by the MAC
implementations and the current wall-clock time (`SystemTime::now()` as
Unix seconds).  A failed Base32 decode falls back to the empty byte
sequence (`unwrap_or_default`).  An unrecognised `hash_fn` makes the
source `panic!`; the panic is embedded as `none`. -/
def OtpEntry.get_otp_value (h : HmacImpls) (now : Nat) (e : OtpEntry) : Option OtpValue :=
  let secret := (base32Decode e.secret_hash).getD []
  if e.hash_fn = "sha1" then
    some { name := e.name, otp := totp_custom h.sha1 e.step e.digit_count secret now }
  else if e.hash_fn = "sha256" then
    some { name := e.name, otp := totp_custom h.sha256 e.step e.digit_count secret now }
  else if e.hash_fn = "sha512" then
    some { name := e.name, otp := totp_custom h.sha512 e.step e.digit_count secret now }
  else none

/-! ## Application state -/

/-- `AppState` from common.rs: the entry list and the ephemeral
id → code table. -/
structure AppState where
  otp_entries : List OtpEntry
  otp_codes : List (Nat × String)
deriving DecidableEq

/-- `Default::default()` for `AppState`: empty entries, empty code table. -/
def AppState.default : AppState := { otp_entries := [], otp_codes := [] }

/-- `EntryAction` from common.rs. -/
inductive EntryAction where
  | Add
  | Edit (index : Nat)
deriving DecidableEq

/-- `AppState::menu_reset`: same entries, fresh (empty) code table. -/
def AppState.menu_reset (s : AppState) : AppState :=
  { otp_entries := s.otp_entries, otp_codes := [] }

/-- `AppState::add_otp_value`: hash the opaque identity to a 64-bit key
(`DefaultHasher` is embedded as the parameter `hash`, whose values model
`Hasher::finish`), insert the code under that key, return the key.  The
source mutates `self`; the embedding returns the new state paired with
the key. -/
def AppState.add_otp_value {α : Type} (hash : α → Nat) (s : AppState)
    (entry : α) (otp_code : String) : AppState × Nat :=
  let key := hash entry
  ({ s with otp_codes := mapInsert s.otp_codes key otp_code }, key)

/-- `AppState::get_otp_value_by_id`. -/
def AppState.get_otp_value_by_id (s : AppState) (id : Nat) : Option String :=
  mapGet s.otp_codes id

/-- `AppState::get_otp_value_at_index`:
`self.otp_entries.get(index).map(|entry| entry.get_otp_value())`.
The outer `Option` is `Vec::get` (index in range or not); the inner one
is `get_otp_value`'s embedded panic. -/
def AppState.get_otp_value_at_index (h : HmacImpls) (now : Nat)
    (s : AppState) (index : Nat) : Option (Option OtpValue) :=
  (s.otp_entries[index]?).map fun entry => entry.get_otp_value h now

/-- `AppState::save_entry`: `Add` pushes the entry at the end, `Edit(i)`
assigns `entries[i] = entry` (which panics when `i` is out of range in
the source; `List.set` is a no-op there, and every claim about `Edit`
carries the in-range precondition).  The result takes
`..Default::default()` for the code table. -/
def AppState.save_entry (s : AppState) (otp_entry : OtpEntry)
    (entry_action : EntryAction) : AppState :=
  let new_otp_entries := match entry_action with
    | .Add => s.otp_entries ++ [otp_entry]
    | .Edit index => s.otp_entries.set index otp_entry
  { otp_entries := new_otp_entries, otp_codes := [] }

/-- `AppState::remove_entry_index` (panics when out of range in the
source; `List.eraseIdx` is a no-op there). -/
def AppState.remove_entry_index (s : AppState) (index : Nat) : AppState :=
  { otp_entries := s.otp_entries.eraseIdx index, otp_codes := [] }

/-! ## Config persistence

`serde_yaml` is external; the YAML text layer is modelled at the level of
structured YAML values (`Yaml`).  Serialisation of `OtpTrayConfig` /
`OtpEntry` maps each struct to a mapping with one key per field, per the
derived serde instances and §6 of the spec; deserialisation looks fields
up by name (order-insensitive, unknown keys ignored, all fields
required, integer bounds checked), which is serde's derived behaviour.
A file whose text is not valid YAML is modelled by any `Yaml` value that
fails deserialisation. -/

/-- Structured YAML values. -/
inductive Yaml where
  | str (s : String)
  | nat (n : Nat)
  | seq (items : List Yaml)
  | map (entries : List (String × Yaml))

/-- Look a key up in a YAML mapping. -/
def yamlLookup : List (String × Yaml) → String → Option Yaml
  | [], _ => none
  | (k', v) :: rest, k => if k' = k then some v else yamlLookup rest k

/-- Deserialise a YAML value as a string field. -/
def asStr : Yaml → Option String
  | .str s => some s
  | _ => none

/-- Deserialise a YAML value as a `u64` field. -/
def asU64 : Yaml → Option Nat
  | .nat n => if n < 2 ^ 64 then some n else none
  | _ => none

/-- Deserialise a YAML value as a `u32` field. -/
def asU32 : Yaml → Option Nat
  | .nat n => if n < 2 ^ 32 then some n else none
  | _ => none

/-- The serde serialisation of one `OtpEntry`. -/
def serializeEntry (e : OtpEntry) : Yaml :=
  .map [("name", .str e.name), ("step", .nat e.step),
        ("secret_hash", .str e.secret_hash), ("hash_fn", .str e.hash_fn),
        ("digit_count", .nat e.digit_count)]

/-- The serde serialisation of `OtpTrayConfig { entries }`. -/
def serializeConfig (entries : List OtpEntry) : Yaml :=
  .map [("entries", .seq (entries.map serializeEntry))]

/-- The serde deserialisation of one `OtpEntry`: all five fields must be
present with the right types; `hash_fn` is a plain `String` in the
source, so no membership in `VALID_HASH_FNS` is checked here. -/
def deserializeEntry : Yaml → Option OtpEntry
  | .map kvs =>
    match yamlLookup kvs "name" >>= asStr,
        yamlLookup kvs "step" >>= asU64,
        yamlLookup kvs "secret_hash" >>= asStr,
        yamlLookup kvs "hash_fn" >>= asStr,
        yamlLookup kvs "digit_count" >>= asU32 with
    | some name, some step, some secret_hash, some hash_fn, some digit_count =>
      some { name := name, step := step, secret_hash := secret_hash,
             hash_fn := hash_fn, digit_count := digit_count }
    | _, _, _, _, _ => none
  | _ => none

/-- Deserialise a sequence of entries; one bad entry fails the whole
sequence (serde aborts the entire `Vec` on the first error). -/
def deserializeEntries : List Yaml → Option (List OtpEntry)
  | [] => some []
  | y :: rest =>
    match deserializeEntry y, deserializeEntries rest with
    | some e, some es => some (e :: es)
    | _, _ => none

/-- The serde deserialisation of `OtpTrayConfig`. -/
def deserializeConfig : Yaml → Option (List OtpEntry)
  | .map kvs =>
    match yamlLookup kvs "entries" with
    | some (.seq items) => deserializeEntries items
    | _ => none
  | _ => none

/-- `std::io::ErrorKind`, restricted to what `load_from_config`
distinguishes. -/
inductive IoErrorKind where
  | NotFound
  | PermissionDenied
  | Other
deriving DecidableEq

/-- `Error` from common.rs (the `serde_yaml::Error` / `std::io::Error`
payloads are reduced to the distinctions the claims need). -/
inductive Error where
  | NoUserConfigDir
  | YAML
  | Io (kind : IoErrorKind)
deriving DecidableEq

/-- The outcome of `OpenOptions::open` on the config path: an I/O error
of some kind, or a readable file whose parsed YAML content is `content`. -/
inductive OpenResult where
  | err (kind : IoErrorKind)
  | ok (content : Yaml)

/-- `AppState::load_from_config` from common.rs, parameterised by the
outcome of opening the config file.  `ErrorKind::NotFound` yields
`Default::default()`; any other open error is returned as `Error::Io`;
a file that fails to deserialise is returned as `Error::YAML`; otherwise
the entries are taken from the file and the rest of the state is
`..Default::default()` (empty code table).  (The upstream
`config_path()` failure `Error::NoUserConfigDir` is propagated before
any of this and is not modelled.) -/
def load_from_config (openResult : OpenResult) : Except Error AppState :=
  match openResult with
  | .err .NotFound => .ok AppState.default
  | .err kind => .error (.Io kind)
  | .ok content =>
    match deserializeConfig content with
    | none => .error .YAML
    | some entries => .ok { otp_entries := entries, otp_codes := [] }

/-- `AppState::save_to_config` from common.rs, modelled as producing the
serialised YAML content that is written to the file
(`serde_yaml::to_writer` of `OtpTrayConfig { entries }`); file-system
errors and the 0600-permission handling are outside the embedding. -/
def AppState.save_to_config (s : AppState) : Yaml :=
  serializeConfig s.otp_entries

/-! ## Helper lemmas about decimal rendering -/

theorem natDigitsAux_length (fuel : Nat) :
    ∀ n d, n ≤ fuel → n < 10 ^ d → (natDigitsAux fuel n).length ≤ d := by
  induction fuel with
  | zero =>
    intro n d hn _
    interval_cases n
    simp [natDigitsAux]
  | succ fuel ih =>
    intro n d hn hd
    match n with
    | 0 => simp [natDigitsAux]
    | n + 1 =>
      match d with
      | 0 => omega
      | d + 1 =>
        simp only [natDigitsAux, List.length_cons]
        have h1 : (n + 1) / 10 ≤ fuel := by
          have := Nat.div_lt_self (Nat.succ_pos n) (by norm_num : 1 < 10)
          omega
        have h2 : (n + 1) / 10 < 10 ^ d := by
          have hp : 10 ^ (d + 1) = 10 ^ d * 10 := by ring
          exact (Nat.div_lt_iff_lt_mul (by norm_num)).mpr (by omega)
        have := ih ((n + 1) / 10) d h1 h2
        omega

theorem natDigitsAux_lt_ten (fuel : Nat) :
    ∀ n x, x ∈ natDigitsAux fuel n → x < 10 := by
  induction fuel with
  | zero => intro n x hx; simp [natDigitsAux] at hx
  | succ fuel ih =>
    intro n x hx
    match n with
    | 0 => simp [natDigitsAux] at hx
    | n + 1 =>
      simp only [natDigitsAux, List.mem_cons] at hx
      rcases hx with h | h
      · exact h ▸ Nat.mod_lt _ (by norm_num)
      · exact ih _ _ h

theorem decimalString_length (width n : Nat) (h : n < 10 ^ width) :
    (decimalString width n).length = width := by
  have hlen : (natDigits n).length ≤ width := natDigitsAux_length n n width le_rfl h
  simp only [decimalString, String.length, List.length_map, List.length_append,
    List.length_replicate, List.length_reverse]
  omega

theorem char_ofNat_digit_isDigit (d : Nat) (hd : d < 10) :
    (Char.ofNat (48 + d)).isDigit = true := by
  interval_cases d <;> decide

theorem decimalString_all_digits (width n : Nat) :
    ((decimalString width n).data.all Char.isDigit) = true := by
  simp only [decimalString]
  rw [List.all_eq_true]
  intro c hc
  simp only [List.mem_map, List.mem_append, List.mem_replicate, List.mem_reverse] at hc
  obtain ⟨d, hd, rfl⟩ := hc
  have hd10 : d < 10 := by
    rcases hd with h | h
    · omega
    · exact natDigitsAux_lt_ten n n d h
  exact char_ofNat_digit_isDigit d hd10

/-! ## Claim theorems -/

/-- C1: for every credential entry with `digit_count = d` (`1 ≤ d`, hash
function one of the three valid ones per the data model) and every
wall-clock time, the OTP derivation succeeds and the code string it
produces has length exactly `d` and consists only of decimal digits —
for an arbitrary MAC implementation. -/
theorem get_otp_value_length_and_digits (h : HmacImpls) (now : Nat) (e : OtpEntry)
    (d : Nat) (hd : e.digit_count = d) (h1 : 1 ≤ d) (hv : e.hash_fn ∈ VALID_HASH_FNS) :
    ∃ v : OtpValue, e.get_otp_value h now = some v ∧
      v.otp.length = d ∧ v.otp.data.all Char.isDigit = true := by
  subst hd
  have key : ∀ hmac : List Nat → List Nat → List Nat,
      (totp_custom hmac e.step e.digit_count ((base32Decode e.secret_hash).getD []) now).length
          = e.digit_count ∧
        (totp_custom hmac e.step e.digit_count
            ((base32Decode e.secret_hash).getD []) now).data.all Char.isDigit = true := by
    intro hmac
    exact ⟨decimalString_length _ _ (Nat.mod_lt _ (pow_pos (by norm_num) _)),
      decimalString_all_digits _ _⟩
  simp only [VALID_HASH_FNS, List.mem_cons, List.not_mem_nil, or_false] at hv
  rcases hv with hfn | hfn | hfn
  · refine ⟨⟨e.name, totp_custom h.sha1 e.step e.digit_count ((base32Decode e.secret_hash).getD []) now⟩, ?_, (key h.sha1).1, (key h.sha1).2⟩
    simp [OtpEntry.get_otp_value, hfn]
  · refine ⟨⟨e.name, totp_custom h.sha256 e.step e.digit_count ((base32Decode e.secret_hash).getD []) now⟩, ?_, (key h.sha256).1, (key h.sha256).2⟩
    simp [OtpEntry.get_otp_value, hfn]
  · refine ⟨⟨e.name, totp_custom h.sha512 e.step e.digit_count ((base32Decode e.secret_hash).getD []) now⟩, ?_, (key h.sha512).1, (key h.sha512).2⟩
    simp [OtpEntry.get_otp_value, hfn]

theorem find?_validHash_isNone_iff (hash_fn : String) :
    ((VALID_HASH_FNS.find? fun valid_hash => valid_hash == hash_fn).isNone = true) ↔
      hash_fn ∉ VALID_HASH_FNS := by
  rw [Option.isNone_iff_eq_none, List.find?_eq_none]
  constructor
  · intro h hmem
    exact absurd (beq_iff_eq.mpr rfl) (h _ hmem)
  · intro h x hx heq
    exact h (beq_iff_eq.mp heq ▸ hx)

/-- C2: `input_validate` succeeds exactly when all six checks pass, and
when several checks fail the error reported is the first failing one in
the order name-empty, name-length, secret-empty, hash-function,
step-parse, digit-parse. -/
theorem input_validate_first_error (name step secret_hash hash_fn digit_count : String) :
    ((input_validate name step secret_hash hash_fn digit_count).isOk = true ↔
      (name.isEmpty = false ∧ name.utf8ByteSize ≤ 255 ∧ secret_hash.isEmpty = false ∧
        hash_fn ∈ VALID_HASH_FNS ∧ (parseU64 step.data).isSome = true ∧
        (parseU8 digit_count.data).isSome = true))
    ∧ (name.isEmpty = true →
        input_validate name step secret_hash hash_fn digit_count = .error (.Empty "name"))
    ∧ (name.isEmpty = false → 255 < name.utf8ByteSize →
        input_validate name step secret_hash hash_fn digit_count =
          .error (.Length "name" 255 name.utf8ByteSize))
    ∧ (name.isEmpty = false → name.utf8ByteSize ≤ 255 → secret_hash.isEmpty = true →
        input_validate name step secret_hash hash_fn digit_count = .error (.Empty "secret"))
    ∧ (name.isEmpty = false → name.utf8ByteSize ≤ 255 → secret_hash.isEmpty = false →
        hash_fn ∉ VALID_HASH_FNS →
        input_validate name step secret_hash hash_fn digit_count =
          .error (.InvalidSelection "hash function" hash_fn VALID_HASH_FNS))
    ∧ (name.isEmpty = false → name.utf8ByteSize ≤ 255 → secret_hash.isEmpty = false →
        hash_fn ∈ VALID_HASH_FNS → parseU64 step.data = none →
        input_validate name step secret_hash hash_fn digit_count = .error .IntegerFormat)
    ∧ (name.isEmpty = false → name.utf8ByteSize ≤ 255 → secret_hash.isEmpty = false →
        hash_fn ∈ VALID_HASH_FNS → (parseU64 step.data).isSome = true →
        parseU8 digit_count.data = none →
        input_validate name step secret_hash hash_fn digit_count = .error .IntegerFormat) := by
  have hfind := find?_validHash_isNone_iff hash_fn
  unfold input_validate
  by_cases h1 : name.isEmpty = true
  · simp [h1, Except.isOk, Except.toBool]
  · by_cases h2 : 255 < name.utf8ByteSize
    · simp [h1, h2, Except.isOk, Except.toBool, Nat.not_le.mpr h2]
    · by_cases h3 : secret_hash.isEmpty = true
      · simp [h1, h2, h3, Except.isOk, Except.toBool]
      · by_cases h4 : hash_fn ∈ VALID_HASH_FNS
        · cases hp : parseU64 step.data <;> cases hq : parseU8 digit_count.data <;>
            simp [h1, h2, h3, h4, hfind, hp, hq, Except.isOk, Except.toBool, Nat.not_lt.mp h2]
        · simp [h1, h2, h3, h4, hfind, Except.isOk, Except.toBool, Nat.not_lt.mp h2]

/-- Witness for C2: empty name and empty secret simultaneously — the
name-empty error wins; and a fully valid input validates. -/
theorem input_validate_first_error_witness :
    input_validate "" "30" "" "sha1" "6" = .error (.Empty "name")
    ∧ (input_validate "GitHub" "30" "JBSWY3DPEHPK3PXP" "sha1" "6").isOk = true :=
  ⟨(input_validate_first_error "" "30" "" "sha1" "6").2.1 (by decide),
    (input_validate_first_error "GitHub" "30" "JBSWY3DPEHPK3PXP" "sha1" "6").1.mpr
      (by refine ⟨by decide, by decide, by decide, by decide, ?_, ?_⟩ <;> decide)⟩

/-- A trivial MAC family, used to instantiate witnesses. -/
def hmacZero : HmacImpls := ⟨fun _ _ => [], fun _ _ => [], fun _ _ => []⟩

/-- A sample entry for witnesses. -/
def sampleEntry : OtpEntry := ⟨"sample", 30, "JBSWY3DP", "sha1", 6⟩

/-- A second sample entry for witnesses. -/
def sampleEntry2 : OtpEntry := ⟨"other", 60, "MFRGG", "sha256", 8⟩

/-- A sample state with one entry and a non-empty code table. -/
def sampleState : AppState := ⟨[sampleEntry], [(7, "123456")]⟩

/-- C3: `menu_reset` keeps the entry list and empties the ephemeral code
table, so every id resolves to absent afterwards. -/
theorem menu_reset_spec (s : AppState) :
    (s.menu_reset).otp_entries = s.otp_entries ∧
      ∀ id : Nat, (s.menu_reset).get_otp_value_by_id id = none :=
  ⟨rfl, fun _ => rfl⟩

/-- C4: `save_entry` with `Add` appends the entry, and with `Edit i` (for
an in-range `i`) replaces position `i`; either way the returned state's
code table is empty. -/
theorem save_entry_spec (s : AppState) (e : OtpEntry) :
    ((s.save_entry e .Add).otp_entries = s.otp_entries ++ [e]
      ∧ (s.save_entry e .Add).otp_codes = [])
    ∧ ∀ i : Nat, i < s.otp_entries.length →
        (s.save_entry e (.Edit i)).otp_entries = s.otp_entries.set i e
        ∧ (s.save_entry e (.Edit i)).otp_codes = [] :=
  ⟨⟨rfl, rfl⟩, fun _ _ => ⟨rfl, rfl⟩⟩

/-- Witness for C4: editing index 0 of a one-entry state. -/
theorem save_entry_spec_witness :
    (sampleState.save_entry sampleEntry2 (.Edit 0)).otp_entries =
        sampleState.otp_entries.set 0 sampleEntry2
    ∧ (sampleState.save_entry sampleEntry2 (.Edit 0)).otp_codes = [] :=
  (save_entry_spec sampleState sampleEntry2).2 0 (by decide)

/-- C5: registering a code under an opaque identity and resolving the
returned id yields exactly that code; and when a second identity hashes
to the same id within the same render pass, the later registration's
code is the one resolved (silent overwrite). -/
theorem add_otp_value_roundtrip_overwrite {α : Type} (hash : α → Nat) (s : AppState)
    (x : α) (code : String) :
    ((s.add_otp_value hash x code).1).get_otp_value_by_id ((s.add_otp_value hash x code).2)
        = some code
    ∧ ∀ (y : α) (code2 : String), hash y = hash x →
        (((s.add_otp_value hash x code).1.add_otp_value hash y code2).1).get_otp_value_by_id
            ((s.add_otp_value hash x code).2) = some code2 := by
  constructor
  · exact mapGet_mapInsert_self _ _ _
  · intro y code2 hcoll
    simp only [AppState.add_otp_value, AppState.get_otp_value_by_id, hcoll]
    exact mapGet_mapInsert_self _ _ _

/-- Witness for C5: identities 5 and 1 collide under `· % 4`; the later
registration's code is resolved. -/
theorem add_otp_value_roundtrip_overwrite_witness :
    (((AppState.default.add_otp_value (fun n : Nat => n % 4) 5 "111111").1.add_otp_value
          (fun n : Nat => n % 4) 1 "222222").1).get_otp_value_by_id
        ((AppState.default.add_otp_value (fun n : Nat => n % 4) 5 "111111").2) = some "222222" :=
  (add_otp_value_roundtrip_overwrite (fun n : Nat => n % 4) AppState.default 5 "111111").2
    1 "222222" (by decide)

/-- C10: `get_otp_value_at_index` is total over indices — absent for an
out-of-range index, and the derived OTP value of the entry at the
position for an in-range one. -/
theorem get_otp_value_at_index_total (h : HmacImpls) (now : Nat) (s : AppState) (i : Nat) :
    (s.otp_entries.length ≤ i → s.get_otp_value_at_index h now i = none)
    ∧ ∀ hi : i < s.otp_entries.length,
        s.get_otp_value_at_index h now i =
          some ((s.otp_entries.get ⟨i, hi⟩).get_otp_value h now) := by
  constructor
  · intro hle
    simp [AppState.get_otp_value_at_index, List.getElem?_eq_none hle]
  · intro hi
    simp [AppState.get_otp_value_at_index, List.getElem?_eq_getElem hi, List.get_eq_getElem]

/-- Witness for C10: index 1 of a one-entry state is absent, index 0
resolves to the entry's derived value. -/
theorem get_otp_value_at_index_total_witness :
    (sampleState.get_otp_value_at_index hmacZero 0 1 = none)
    ∧ (sampleState.get_otp_value_at_index hmacZero 0 0 =
        some ((sampleState.otp_entries.get ⟨0, by decide⟩).get_otp_value hmacZero 0)) :=
  ⟨(get_otp_value_at_index_total hmacZero 0 sampleState 1).1 (by decide),
    (get_otp_value_at_index_total hmacZero 0 sampleState 0).2 (by decide)⟩

theorem deserializeEntry_serializeEntry (e : OtpEntry)
    (hstep : e.step < 2 ^ 64) (hdc : e.digit_count < 2 ^ 32) :
    deserializeEntry (serializeEntry e) = some e := by
  norm_num at hstep hdc
  simp [deserializeEntry, serializeEntry, yamlLookup, asStr, asU64, asU32, hstep, hdc]

theorem deserializeEntries_roundtrip (l : List OtpEntry)
    (hb : ∀ e ∈ l, e.step < 2 ^ 64 ∧ e.digit_count < 2 ^ 32) :
    deserializeEntries (l.map serializeEntry) = some l := by
  induction l with
  | nil => rfl
  | cons e rest ih =>
    have he := hb e (List.mem_cons_self e rest)
    have hrest : ∀ x ∈ rest, x.step < 2 ^ 64 ∧ x.digit_count < 2 ^ 32 :=
      fun x hx => hb x (List.mem_cons_of_mem _ hx)
    simp [deserializeEntries, deserializeEntry_serializeEntry e he.1 he.2, ih hrest]

/-- C6: a missing config file yields the default state (empty entries,
empty code table) and is not an error; any other open error and any
content that fails to deserialise yield an error, never a default
state; and a loadable file yields its entries with an empty code
table. -/
theorem load_from_config_spec :
    (load_from_config (.err .NotFound) = .ok ⟨[], []⟩)
    ∧ (∀ k : IoErrorKind, k ≠ .NotFound → load_from_config (.err k) = .error (.Io k))
    ∧ (∀ content : Yaml, deserializeConfig content = none →
        load_from_config (.ok content) = .error .YAML)
    ∧ (∀ (content : Yaml) (entries : List OtpEntry), deserializeConfig content = some entries →
        load_from_config (.ok content) = .ok ⟨entries, []⟩) := by
  refine ⟨rfl, ?_, ?_, ?_⟩
  · intro k hk
    cases k
    · exact absurd rfl hk
    · rfl
    · rfl
  · intro c hc
    simp [load_from_config, hc]
  · intro c entries hc
    simp [load_from_config, hc]

/-- Witness for C6: a permission error and a structurally invalid
content both load as errors. -/
theorem load_from_config_spec_witness :
    load_from_config (.err .PermissionDenied) = .error (.Io .PermissionDenied)
    ∧ load_from_config (.ok (.str "garbage")) = .error .YAML :=
  ⟨load_from_config_spec.2.1 .PermissionDenied (by decide),
    load_from_config_spec.2.2.1 (.str "garbage") (by decide)⟩

/-- C7: saving a state's entry list to the config format and loading it
back yields exactly the same entry list (and an empty code table).  The
bounds hypotheses record that `step` is a `u64` and `digit_count` a
`u32` in the source. -/
theorem config_roundtrip (s : AppState)
    (hb : ∀ e ∈ s.otp_entries, e.step < 2 ^ 64 ∧ e.digit_count < 2 ^ 32) :
    load_from_config (.ok s.save_to_config) = .ok ⟨s.otp_entries, []⟩ := by
  simp [load_from_config, AppState.save_to_config, serializeConfig, deserializeConfig,
    yamlLookup, deserializeEntries_roundtrip s.otp_entries hb]

/-- Witness for C7 on a two-entry state. -/
theorem config_roundtrip_witness :
    load_from_config (.ok (AppState.mk [sampleEntry, sampleEntry2] []).save_to_config) =
      .ok ⟨[sampleEntry, sampleEntry2], []⟩ :=
  config_roundtrip (AppState.mk [sampleEntry, sampleEntry2] []) (by decide)

/-- Counterexample for C8: an entry whose `hash_fn` is `"md5"` is parsed
and KEPT by config loading (`hash_fn` is a plain string field, so the
entry deserialises fine and nothing drops it), and OTP derivation on it
panics (`panic!("Unknown hash function: ...")`, embedded as `none`) —
refuting the claim that such entries are dropped at load and that no
subsequent derivation panics because of them. -/
theorem unknown_hashfn_kept_and_panics :
    load_from_config (.ok (serializeConfig [⟨"bad", 30, "JBSWY3DP", "md5", 6⟩])) =
        .ok ⟨[⟨"bad", 30, "JBSWY3DP", "md5", 6⟩], []⟩
    ∧ OtpEntry.get_otp_value hmacZero 0 ⟨"bad", 30, "JBSWY3DP", "md5", 6⟩ = none :=
  ⟨rfl, rfl⟩

/-- C8 as amended: an entry with an unrecognised `hash_fn` is loaded and
kept, and OTP derivation on it panics; an entry that fails structural
parsing makes the whole load fail with an error (it is not dropped
individually). -/
theorem load_amended_behavior :
    (∀ e : OtpEntry, e.step < 2 ^ 64 → e.digit_count < 2 ^ 32 →
        deserializeConfig (serializeConfig [e]) = some [e])
    ∧ (∀ (h : HmacImpls) (now : Nat) (e : OtpEntry), e.hash_fn ∉ VALID_HASH_FNS →
        e.get_otp_value h now = none)
    ∧ (∀ content : Yaml, deserializeConfig content = none →
        load_from_config (.ok content) = .error .YAML) := by
  refine ⟨?_, ?_, ?_⟩
  · intro e hstep hdc
    simp [deserializeConfig, serializeConfig, yamlLookup,
      deserializeEntries, deserializeEntry_serializeEntry e hstep hdc]
  · intro h now e hv
    simp only [VALID_HASH_FNS, List.mem_cons, List.not_mem_nil, or_false, not_or] at hv
    simp [OtpEntry.get_otp_value, hv.1, hv.2.1, hv.2.2]
  · intro c hc
    simp [load_from_config, hc]

/-- Witness for the amended C8 at the `"md5"` entry and a garbage file. -/
theorem load_amended_behavior_witness :
    deserializeConfig (serializeConfig [⟨"bad", 30, "JBSWY3DP", "md5", 6⟩]) =
        some [⟨"bad", 30, "JBSWY3DP", "md5", 6⟩]
    ∧ OtpEntry.get_otp_value hmacZero 5 ⟨"bad", 30, "JBSWY3DP", "md5", 6⟩ = none
    ∧ load_from_config (.ok (.nat 3)) = .error .YAML :=
  ⟨load_amended_behavior.1 ⟨"bad", 30, "JBSWY3DP", "md5", 6⟩ (by decide) (by decide),
    load_amended_behavior.2.1 hmacZero 5 ⟨"bad", 30, "JBSWY3DP", "md5", 6⟩ (by decide),
    load_amended_behavior.2.2 (.nat 3) (by decide)⟩

/-- C9: when the secret is not valid unpadded Base32, OTP derivation does
not fail because of it — it falls back to the empty byte sequence, giving
the same result as the same entry with empty secret material; with a
recognised hash function it succeeds. -/
theorem invalid_base32_degrades (h : HmacImpls) (now : Nat) (e : OtpEntry)
    (hbad : base32Decode e.secret_hash = none) :
    e.get_otp_value h now = OtpEntry.get_otp_value h now { e with secret_hash := "" }
    ∧ (e.hash_fn ∈ VALID_HASH_FNS → (e.get_otp_value h now).isSome = true) := by
  constructor
  · have hempty : base32Decode "" = some [] := rfl
    simp only [OtpEntry.get_otp_value, hbad, hempty, Option.getD_none, Option.getD_some]
  · intro hv
    simp only [VALID_HASH_FNS, List.mem_cons, List.not_mem_nil, or_false] at hv
    rcases hv with hfn | hfn | hfn <;> simp [OtpEntry.get_otp_value, hfn]

/-- Witness for C9: `"1"` is not in the Base32 alphabet; derivation on
that secret equals derivation on the empty secret and succeeds. -/
theorem invalid_base32_degrades_witness :
    OtpEntry.get_otp_value hmacZero 0 ⟨"bad", 30, "1", "sha1", 6⟩ =
        OtpEntry.get_otp_value hmacZero 0 ⟨"bad", 30, "", "sha1", 6⟩
    ∧ (OtpEntry.get_otp_value hmacZero 0 ⟨"bad", 30, "1", "sha1", 6⟩).isSome = true :=
  ⟨(invalid_base32_degrades hmacZero 0 ⟨"bad", 30, "1", "sha1", 6⟩ (by decide)).1,
    (invalid_base32_degrades hmacZero 0 ⟨"bad", 30, "1", "sha1", 6⟩ (by decide)).2 (by decide)⟩

/-- Witness for C1 at a concrete entry, MAC and time. -/
theorem get_otp_value_length_and_digits_witness :
    ∃ v : OtpValue,
      OtpEntry.get_otp_value
        ⟨fun _ _ => List.replicate 20 1, fun _ _ => List.replicate 32 2,
         fun _ _ => List.replicate 64 3⟩ 59
        ⟨"GitHub", 30, "JBSWY3DPEHPK3PXP", "sha1", 6⟩ = some v ∧
      v.otp.length = 6 ∧ v.otp.data.all Char.isDigit = true :=
  get_otp_value_length_and_digits _ 59 _ 6 rfl (by norm_num) (by decide)

end OtpTray
